import Mathlib

/-!
Shallow embedding of the fanotify-rs crate core: the flag model
(`src/flags.rs`), the event decoder (`src/event.rs`), and the session /
watch-set operations (`src/fanotify.rs`).

Modelling conventions:
* byte buffers and paths are `List Nat` (each element a byte value);
* `u64` / `u32` mask values are `Nat`; `i32` fields are `Int` with explicit
  two's-complement reinterpretation where the source casts;
* the bitflags `contains` method is `containsBits m s = (m &&& s == s)`:
  it tests that EVERY bit of `s` is present in `m` (this is what the
  bitflags crate implements, and several source predicates rely on it);
* kernel calls (`fanotify_mark`, `write`, fd-to-path resolution) are
  modelled by explicit outcome parameters: an `Option FanotifyError`
  (`none` = the syscall succeeded) for mark calls, and a resolver function
  `Int → Option Path` for `/proc/self/fd` path lookup;
* fallible Rust functions returning `Result` become `Except FanotifyError`.
-/

namespace FanotifyRs

abbrev Path : Type := List Nat

/-- Error enumeration from `src/error.rs` (`FanotifyError`). Payloads that
are only human-readable text are kept as the literal strings the source
constructs; `InvalidPath` carries the offending path bytes. -/
inductive FanotifyError where
  | Io (errno : Int)
  | InvalidFlags (message : String)
  | InvalidPath (path : Path)
  | NotSupported
  | PermissionDenied (message : String)
  | InvalidEventData (message : String)
  | BufferOverflow
  | WouldBlock
  | InvalidFd
  | SyscallFailed (syscall : String) (errno : Int)
  | NoEvents
  | InvalidMask (message : String)
deriving DecidableEq, Repr

instance {ε α : Type} [DecidableEq ε] [DecidableEq α] :
    DecidableEq (Except ε α) := fun a b =>
  match a, b with
  | .ok x, .ok y => decidable_of_iff (x = y) (by simp)
  | .error x, .error y => decidable_of_iff (x = y) (by simp)
  | .ok _, .error _ => isFalse (by simp)
  | .error _, .ok _ => isFalse (by simp)

/-- bitflags `contains`: all bits of `s` are set in `m`. -/
def containsBits (m s : Nat) : Bool := m &&& s == s

/-- bitflags `intersects`: at least one bit of `s` is set in `m`.
(Defined for stating comparisons; the source predicates use `contains`.) -/
def intersectsBits (m s : Nat) : Bool := m &&& s != 0

namespace MaskFlags

-- Constants from `src/flags.rs`, `bitflags! MaskFlags : u64`.
def ACCESS : Nat := 0x00000001
def MODIFY : Nat := 0x00000002
def ATTRIB : Nat := 0x00000004
def CLOSE_WRITE : Nat := 0x00000008
def CLOSE_NOWRITE : Nat := 0x00000010
def OPEN : Nat := 0x00000020
def MOVED_FROM : Nat := 0x00000040
def MOVED_TO : Nat := 0x00000080
def CREATE : Nat := 0x00000100
def DELETE : Nat := 0x00000200
def DELETE_SELF : Nat := 0x00000400
def MOVE_SELF : Nat := 0x00000800
def OPEN_PERM : Nat := 0x00001000
def ACCESS_PERM : Nat := 0x00002000
def ISDIR : Nat := 0x40000000
def UNMOUNT : Nat := 0x00002000
def Q_OVERFLOW : Nat := 0x00004000
def IGNORED : Nat := 0x00008000
def ONLYDIR : Nat := 0x01000000
def DONT_FOLLOW : Nat := 0x02000000
def EXCL_UNLINK : Nat := 0x04000000
def MASK_ADD : Nat := 0x20000000
def IGNORED_MASK : Nat := 0x80000000

def ALL_ACCESS_EVENTS : Nat :=
  ACCESS ||| MODIFY ||| ATTRIB ||| CLOSE_WRITE ||| CLOSE_NOWRITE ||| OPEN

def ALL_MODIFY_EVENTS : Nat :=
  MODIFY ||| ATTRIB ||| CLOSE_WRITE ||| CREATE ||| DELETE ||| DELETE_SELF |||
  MOVE_SELF ||| MOVED_FROM ||| MOVED_TO

def ALL_EVENTS : Nat :=
  ALL_ACCESS_EVENTS ||| ALL_MODIFY_EVENTS ||| OPEN_PERM ||| ACCESS_PERM ||| UNMOUNT

/-- Union of every named `MaskFlags` constant: the set of bit patterns the
bitflags type considers valid (`MaskFlags::all()`). -/
def knownBits : Nat :=
  ACCESS ||| MODIFY ||| ATTRIB ||| CLOSE_WRITE ||| CLOSE_NOWRITE ||| OPEN |||
  MOVED_FROM ||| MOVED_TO ||| CREATE ||| DELETE ||| DELETE_SELF ||| MOVE_SELF |||
  OPEN_PERM ||| ACCESS_PERM ||| ISDIR ||| UNMOUNT ||| Q_OVERFLOW ||| IGNORED |||
  ONLYDIR ||| DONT_FOLLOW ||| EXCL_UNLINK ||| MASK_ADD ||| IGNORED_MASK |||
  ALL_ACCESS_EVENTS ||| ALL_MODIFY_EVENTS ||| ALL_EVENTS

/-- `MaskFlags::from_bits`: `some` exactly when no bit lies outside the
named universe. -/
def from_bits (n : Nat) : Option Nat :=
  if containsBits knownBits n then some n else none

/-- `MaskFlags::has_access_events` (bitflags `contains` on a 3-bit union). -/
def has_access_events (m : Nat) : Bool :=
  containsBits m (ACCESS ||| OPEN ||| ACCESS_PERM)

/-- `MaskFlags::has_modify_events` (bitflags `contains` on a 9-bit union). -/
def has_modify_events (m : Nat) : Bool :=
  containsBits m (MODIFY ||| ATTRIB ||| CLOSE_WRITE ||| CREATE ||| DELETE |||
    DELETE_SELF ||| MOVE_SELF ||| MOVED_FROM ||| MOVED_TO)

/-- `MaskFlags::has_permission_events`. -/
def has_permission_events (m : Nat) : Bool :=
  containsBits m (OPEN_PERM ||| ACCESS_PERM)

/-- `MaskFlags::is_directory_only`. -/
def is_directory_only (m : Nat) : Bool := containsBits m ONLYDIR

/-- `MaskFlags::follows_symlinks`. -/
def follows_symlinks (m : Nat) : Bool := !containsBits m DONT_FOLLOW

end MaskFlags

namespace EventFlags

/-- `EventFlags::ALLOW`. -/
def ALLOW : Nat := 0x01

/-- `EventFlags::DENY`. -/
def DENY : Nat := 0x02

end EventFlags

/-- `fanotify_event_metadata` from `src/linux.rs` (decoded field view). -/
structure fanotify_event_metadata where
  event_len : Nat
  vers : Nat
  reserved : Nat
  metadata_len : Nat
  mask : Nat
  fd : Int
  pid : Int
deriving DecidableEq, Repr

/-- `repr(C)` size of `fanotify_event_metadata` on the supported 64-bit
targets: u32,u8,u8,u16 pack to 8 bytes, then u64, i32, i32 — 24 bytes. -/
def metadataSize : Nat := 24

/-- `fanotify_response` from `src/linux.rs`: the record `respond` writes. -/
structure fanotify_response where
  fd : Int
  response : Nat
deriving DecidableEq, Repr

/-- `EventInfo` from `src/event.rs`. -/
structure EventInfo where
  fd : Option Int
  path : Option Path
  mask : Nat
  pid : Nat
  is_directory : Bool
deriving DecidableEq, Repr

/-- `Event` from `src/event.rs`. -/
structure Event where
  info : EventInfo
  raw_data : List Nat
deriving DecidableEq, Repr

/-- `EventInfo::new`. -/
def EventInfo.new (mask : Nat) (pid : Nat) : EventInfo :=
  { fd := none
    path := none
    mask := mask
    pid := pid
    is_directory := containsBits mask MaskFlags.ISDIR }

/-- `EventInfo::with_fd`. -/
def EventInfo.with_fd (i : EventInfo) (fd : Int) : EventInfo :=
  { i with fd := some fd }

/-- Little-endian value of the first `n` bytes of `l`; `none` when fewer
than `n` bytes remain (an out-of-bounds read would be required). -/
def leBytes : List Nat → Nat → Option Nat
  | _, 0 => some 0
  | [], _ + 1 => none
  | b :: t, k + 1 => (leBytes t k).map (fun r => b + 256 * r)

/-- Little-endian read of `n` bytes at offset `off` of the buffer. -/
def leN? (bs : List Nat) (off n : Nat) : Option Nat := leBytes (bs.drop off) n

/-- Reinterpret 32 raw bits as a signed `i32`. -/
def toI32 (v : Nat) : Int :=
  if v < 2 ^ 31 then (v : Int) else (v : Int) - 2 ^ 32

/-- The `as u32` cast of an in-range `i32` (two's complement bits). -/
def i32ToU32 (i : Int) : Nat := (i % 2 ^ 32).toNat

/-- Field-by-field read of the fixed 24-byte header at offset 0
(little-endian, `repr(C)` offsets 0,4,5,6,8,16,20); `none` if any of the
reads would leave the buffer. -/
def parseMetadata (bs : List Nat) : Option fanotify_event_metadata :=
  match leN? bs 0 4, leN? bs 4 1, leN? bs 5 1, leN? bs 6 2,
        leN? bs 8 8, leN? bs 16 4, leN? bs 20 4 with
  | some el, some v, some rsv, some ml, some mk, some fdv, some pv =>
      some { event_len := el, vers := v, reserved := rsv, metadata_len := ml,
             mask := mk, fd := toI32 fdv, pid := toI32 pv }
  | _, _, _, _, _, _, _ => none

/-- `Event::from_raw_data`. `resolve` models `get_path_from_fd(..).ok()`
(the readlink on `/proc/self/fd`). The source casts the slice head to a
`fanotify_event_metadata` after checking `data.len() >= size_of`, builds
the `EventInfo`, and keeps the whole slice as `raw_data`. It never looks
at `event_len`, and it decodes only this one header. -/
def from_raw_data (resolve : Int → Option Path) (data : List Nat) :
    Except FanotifyError Event :=
  if data.length < metadataSize then
    .error (.InvalidEventData "Data too short")
  else
    match parseMetadata data with
    | none => .error (.InvalidEventData "out-of-bounds header read")
    | some metadata =>
      match MaskFlags.from_bits metadata.mask with
      | none => .error (.InvalidMask "Invalid mask bits")
      | some mask =>
        let fd : Option Int := if metadata.fd ≥ 0 then some metadata.fd else none
        let info : EventInfo :=
          { fd := fd
            path := match fd with
                    | some f => resolve f
                    | none => none
            mask := mask
            pid := i32ToU32 metadata.pid
            is_directory := containsBits mask MaskFlags.ISDIR }
        .ok { info := info, raw_data := data }

/-- `Event::is_access`. -/
def Event.is_access (e : Event) : Bool :=
  containsBits e.info.mask MaskFlags.ACCESS

/-- `Event::is_modify`. -/
def Event.is_modify (e : Event) : Bool :=
  containsBits e.info.mask MaskFlags.MODIFY

/-- `Event::is_open`. -/
def Event.is_open (e : Event) : Bool :=
  containsBits e.info.mask MaskFlags.OPEN

/-- `Event::is_close` — bitflags `contains` on the two-bit union. -/
def Event.is_close (e : Event) : Bool :=
  containsBits e.info.mask (MaskFlags.CLOSE_WRITE ||| MaskFlags.CLOSE_NOWRITE)

/-- `Event::is_create`. -/
def Event.is_create (e : Event) : Bool :=
  containsBits e.info.mask MaskFlags.CREATE

/-- `Event::is_delete` — bitflags `contains` on the two-bit union. -/
def Event.is_delete (e : Event) : Bool :=
  containsBits e.info.mask (MaskFlags.DELETE ||| MaskFlags.DELETE_SELF)

/-- `Event::is_move` — bitflags `contains` on the three-bit union. -/
def Event.is_move (e : Event) : Bool :=
  containsBits e.info.mask
    (MaskFlags.MOVED_FROM ||| MaskFlags.MOVED_TO ||| MaskFlags.MOVE_SELF)

/-- `Event::is_permission` — bitflags `contains` on the two-bit union. -/
def Event.is_permission (e : Event) : Bool :=
  containsBits e.info.mask (MaskFlags.OPEN_PERM ||| MaskFlags.ACCESS_PERM)

/-- `Event::description`. -/
def Event.description (e : Event) : String :=
  let parts : List String :=
    (if e.is_access then ["access"] else []) ++
    (if e.is_modify then ["modify"] else []) ++
    (if e.is_open then ["open"] else []) ++
    (if e.is_close then ["close"] else []) ++
    (if e.is_create then ["create"] else []) ++
    (if e.is_delete then ["delete"] else []) ++
    (if e.is_move then ["move"] else []) ++
    (if e.is_permission then ["permission"] else [])
  let parts := if parts.isEmpty then ["unknown"] else parts
  String.intercalate ", " parts ++ " event"

/-- `Event::event_type`. -/
def Event.event_type (e : Event) : String :=
  if e.is_access then "ACCESS"
  else if e.is_modify then "MODIFY"
  else if e.is_open then "OPEN"
  else if e.is_close then "CLOSE"
  else if e.is_create then "CREATE"
  else if e.is_delete then "DELETE"
  else if e.is_move then "MOVE"
  else if e.is_permission then "PERMISSION"
  else "UNKNOWN"

/-- `Fanotify::respond`, up to the kernel `write`: the returned
`fanotify_response` is the record the source hands to `write`; an error
means the source returns before constructing or writing any record. -/
def respond (event : Event) (response : Nat) :
    Except FanotifyError fanotify_response :=
  if !event.is_permission then
    .error (.InvalidEventData "Event is not a permission event")
  else
    match event.info.fd with
    | none => .error (.InvalidEventData "Permission event has no file descriptor")
    | some fd => .ok { fd := fd, response := response }

/-- `Fanotify::allow`. -/
def allow (event : Event) : Except FanotifyError fanotify_response :=
  respond event EventFlags.ALLOW

/-- `Fanotify::deny`. -/
def deny (event : Event) : Except FanotifyError fanotify_response :=
  respond event EventFlags.DENY

/-- `Fanotify::read_event` given the bytes one kernel `read` returned
(`bytesRead` is `buffer[..bytes_read]`): 0 bytes yields `none`; otherwise
the whole slice is passed to `Event::from_raw_data` once. -/
def read_event (resolve : Int → Option Path) (bytesRead : List Nat) :
    Except FanotifyError (Option Event) :=
  if bytesRead.length = 0 then .ok none
  else (from_raw_data resolve bytesRead).map (fun e => some e)

/-- The sequence of typed events one kernel read contributes. -/
def eventsOfRead (resolve : Int → Option Path) (bytesRead : List Nat) :
    List Event :=
  match read_event resolve bytesRead with
  | .ok (some e) => [e]
  | _ => []

/-!
## Encoder for kernel records

A `RawRecord` is the field-level content of one wire record (header fields
plus the trailing bytes up to the record boundary); `encodeRecord` lays it
out exactly as `repr(C)` little-endian `fanotify_event_metadata` does.
This is the wire format of §6 of the design, used to state theorems about
buffers made of complete back-to-back records.
-/

structure RawRecord where
  event_len : Nat
  vers : Nat
  reserved : Nat
  metadata_len : Nat
  mask : Nat
  fd : Int
  pid : Int
  extra : List Nat
deriving DecidableEq, Repr

/-- `n` little-endian bytes of `v`. -/
def toLE : Nat → Nat → List Nat
  | 0, _ => []
  | k + 1, v => v % 256 :: toLE k (v / 256)

/-- Wire layout of one record: 24-byte header then the extra bytes. -/
def encodeRecord (r : RawRecord) : List Nat :=
  toLE 4 r.event_len ++ toLE 1 r.vers ++ toLE 1 r.reserved ++
  toLE 2 r.metadata_len ++ toLE 8 r.mask ++ toLE 4 (i32ToU32 r.fd) ++
  toLE 4 (i32ToU32 r.pid) ++ r.extra

/-- Back-to-back concatenation of complete records. -/
def encodeRecords (rs : List RawRecord) : List Nat :=
  (rs.map encodeRecord).flatten

/-- The header fields are in machine range, the mask passes
`MaskFlags::from_bits`, and the fd/pid fit in `i32`. -/
def RawRecord.wf (r : RawRecord) : Prop :=
  r.event_len < 2 ^ 32 ∧ r.vers < 2 ^ 8 ∧ r.reserved < 2 ^ 8 ∧
  r.metadata_len < 2 ^ 16 ∧ r.mask < 2 ^ 64 ∧
  containsBits MaskFlags.knownBits r.mask = true ∧
  -2 ^ 31 ≤ r.fd ∧ r.fd < 2 ^ 31 ∧ -2 ^ 31 ≤ r.pid ∧ r.pid < 2 ^ 31

instance (r : RawRecord) : Decidable r.wf := by
  unfold RawRecord.wf; infer_instance

/-!
## Watch-set manager state

`Fanotify` holds `watched_paths : HashMap<PathBuf, MaskFlags>`; the map is
modelled as an association list whose keys stay unique (insert removes the
old binding first), which matches `HashMap` up to `get`/`contains_key`.
`read_event` only touches the read buffer and `respond` borrows the
instance immutably, so neither can change `watched_paths`.
-/

abbrev WatchTable : Type := List (Path × Nat)

def lookupTable : WatchTable → Path → Option Nat
  | [], _ => none
  | e :: t, p => if e.1 = p then some e.2 else lookupTable t p

def removeKeyTable : WatchTable → Path → WatchTable
  | [], _ => []
  | e :: t, p => if e.1 = p then removeKeyTable t p else e :: removeKeyTable t p

def insertTable (t : WatchTable) (p : Path) (m : Nat) : WatchTable :=
  (p, m) :: removeKeyTable t p

/-- The state of a `Fanotify` instance that the watch-set claims concern. -/
structure FanotifyState where
  watched_paths : WatchTable
deriving DecidableEq, Repr

def initState : FanotifyState := { watched_paths := [] }

inductive MarkOp where
  | add
  | remove
deriving DecidableEq, Repr

/-- One `fanotify_mark` invocation: operation, mask argument, path. -/
structure MarkCall where
  op : MarkOp
  mask : Nat
  path : Path
deriving DecidableEq, Repr

/-- `Fanotify::add_watch`. `kernel` is the outcome of the `fanotify_mark`
syscall (`none` = success). Returns (result, new state, the mark call
issued if the path converted to a C string). A path containing a NUL byte
fails `CString::new` and yields `InvalidPath` before any kernel call. -/
def add_watch (s : FanotifyState) (p : Path) (mask : Nat)
    (kernel : Option FanotifyError) :
    Except FanotifyError Unit × FanotifyState × Option MarkCall :=
  if p.contains 0 then
    (.error (.InvalidPath p), s, none)
  else
    let call : MarkCall := { op := .add, mask := mask, path := p }
    match kernel with
    | some e => (.error e, s, some call)
    | none =>
        (.ok (), { watched_paths := insertTable s.watched_paths p mask }, some call)

/-- `Fanotify::remove_watch`. The mask passed to the kernel is the stored
mask, or `MaskFlags::empty()` (0) when the path has no table entry; on
kernel success the entry is removed regardless. -/
def remove_watch (s : FanotifyState) (p : Path)
    (kernel : Option FanotifyError) :
    Except FanotifyError Unit × FanotifyState × Option MarkCall :=
  if p.contains 0 then
    (.error (.InvalidPath p), s, none)
  else
    let mask := (lookupTable s.watched_paths p).getD 0
    let call : MarkCall := { op := .remove, mask := mask, path := p }
    match kernel with
    | some e => (.error e, s, some call)
    | none =>
        (.ok (), { watched_paths := removeKeyTable s.watched_paths p }, some call)

/-- `Fanotify::is_watched`. -/
def is_watched (s : FanotifyState) (p : Path) : Bool :=
  (lookupTable s.watched_paths p).isSome

/-- `Fanotify::get_mask`. -/
def get_mask (s : FanotifyState) (p : Path) : Option Nat :=
  lookupTable s.watched_paths p

/-- One operation of a session trace. `read_event` mutates only the read
buffer and `respond` takes `&self`, so both leave the watch table as-is. -/
inductive Op where
  | addW (p : Path) (m : Nat) (kernel : Option FanotifyError)
  | removeW (p : Path) (kernel : Option FanotifyError)
  | readE
  | respondE
deriving Repr

def applyOp (s : FanotifyState) : Op → FanotifyState
  | .addW p m k => (add_watch s p m k).2.1
  | .removeW p k => (remove_watch s p k).2.1
  | .readE => s
  | .respondE => s

def runOps (s : FanotifyState) (ops : List Op) : FanotifyState :=
  ops.foldl applyOp s

/-- Reference fold for the table invariant: the mask recorded by the last
successful `add_watch` on `p` not followed by a successful
`remove_watch` on `p`, starting from `init`. -/
def lastAddFrom (ops : List Op) (p : Path) (init : Option Nat) : Option Nat :=
  ops.foldl (fun acc op =>
    match op with
    | .addW q m k => if q = p ∧ q.contains 0 = false ∧ k = none then some m else acc
    | .removeW q k => if q = p ∧ q.contains 0 = false ∧ k = none then none else acc
    | _ => acc) init

def lastAdd (ops : List Op) (p : Path) : Option Nat := lastAddFrom ops p none

/-!
## Concrete inputs used by witnesses and counterexamples
-/

/-- Path resolution that never finds a path (every readlink fails). -/
def resolveNone : Int → Option Path := fun _ => none

/-- A complete 24-byte record: mask ACCESS, no fd, pid 1. -/
def rec1 : RawRecord :=
  { event_len := 24, vers := 3, reserved := 0, metadata_len := 24,
    mask := 1, fd := -1, pid := 1, extra := [] }

/-- A complete 24-byte record: mask MODIFY, no fd, pid 2. -/
def rec2 : RawRecord :=
  { event_len := 24, vers := 3, reserved := 0, metadata_len := 24,
    mask := 2, fd := -1, pid := 2, extra := [] }

/-- Two complete back-to-back records in one read buffer. -/
def twoRecordBuf : List Nat := encodeRecords [rec1, rec2]

/-- A 24-byte record whose declared `event_len` is 0. -/
def zeroLenRec : RawRecord :=
  { event_len := 0, vers := 3, reserved := 0, metadata_len := 24,
    mask := 1, fd := -1, pid := 1, extra := [] }

/-- Event whose mask is exactly DELETE. -/
def evDelete : Event := { info := EventInfo.new MaskFlags.DELETE 1, raw_data := [] }

/-- Event whose mask is exactly DELETE ||| ISDIR. -/
def evDeleteDir : Event :=
  { info := EventInfo.new (MaskFlags.DELETE ||| MaskFlags.ISDIR) 1, raw_data := [] }

/-- Event whose mask is exactly OPEN_PERM, with fd 5. -/
def evOpenPerm : Event :=
  { info := (EventInfo.new MaskFlags.OPEN_PERM 1).with_fd 5, raw_data := [] }

/-- Event with both permission bits, with fd 5. -/
def evBothPerm : Event :=
  { info := (EventInfo.new (MaskFlags.OPEN_PERM ||| MaskFlags.ACCESS_PERM) 1).with_fd 5,
    raw_data := [] }

/-- Event with both permission bits and no fd. -/
def evBothPermNoFd : Event :=
  { info := EventInfo.new (MaskFlags.OPEN_PERM ||| MaskFlags.ACCESS_PERM) 1,
    raw_data := [] }

/-- Event whose mask is exactly the queue-overflow bit. -/
def evQOverflow : Event :=
  { info := EventInfo.new MaskFlags.Q_OVERFLOW 7, raw_data := [] }

instance (r : RawRecord) : Decidable r.wf := by
  unfold RawRecord.wf; infer_instance

/-!
## Byte-level lemmas
-/

theorem toLE_length (n : Nat) : ∀ v : Nat, (toLE n v).length = n := by
  induction n with
  | zero => intro v; rfl
  | succ k ih => intro v; simp [toLE, ih]

theorem leBytes_zero (l : List Nat) : leBytes l 0 = some 0 := by
  cases l <;> rfl

theorem leBytes_toLE (n : Nat) :
    ∀ (v : Nat) (rest : List Nat),
      leBytes (toLE n v ++ rest) n = some (v % 256 ^ n) := by
  induction n with
  | zero =>
    intro v rest
    rw [leBytes_zero]
    rw [pow_zero, Nat.mod_one]
  | succ k ih =>
    intro v rest
    show leBytes (v % 256 :: (toLE k (v / 256) ++ rest)) (k + 1) = _
    rw [leBytes, ih (v / 256) rest, Option.map_some']
    rw [pow_succ', Nat.mod_mul]

theorem drop_toLE (n v : Nat) (rest : List Nat) :
    (toLE n v ++ rest).drop n = rest := by
  have h := List.drop_left (toLE n v) rest
  rwa [toLE_length] at h

theorem leBytes_isSome (n : Nat) :
    ∀ l : List Nat, n ≤ l.length → (leBytes l n).isSome = true := by
  induction n with
  | zero => intro l _; rw [leBytes_zero]; rfl
  | succ k ih =>
    intro l h
    cases l with
    | nil => simp at h
    | cons b t =>
      rw [leBytes]
      cases hlk : leBytes t k with
      | none =>
        have := ih t (Nat.le_of_succ_le_succ (by simpa using h))
        rw [hlk] at this
        simp at this
      | some x => rfl

theorem i32ToU32_lt (i : Int) : i32ToU32 i < 2 ^ 32 := by
  unfold i32ToU32; omega

theorem toI32_i32ToU32 (i : Int) (h1 : -2 ^ 31 ≤ i) (h2 : i < 2 ^ 31) :
    toI32 (i32ToU32 i) = i := by
  unfold toI32 i32ToU32
  split <;> omega

theorem encodeRecord_length (r : RawRecord) :
    (encodeRecord r).length = 24 + r.extra.length := by
  simp [encodeRecord, toLE_length]
  omega

theorem parseMetadata_encode (r : RawRecord) (rest : List Nat)
    (h1 : r.event_len < 2 ^ 32) (h2 : r.vers < 2 ^ 8) (h3 : r.reserved < 2 ^ 8)
    (h4 : r.metadata_len < 2 ^ 16) (h5 : r.mask < 2 ^ 64) :
    parseMetadata (encodeRecord r ++ rest) =
      some { event_len := r.event_len, vers := r.vers, reserved := r.reserved,
             metadata_len := r.metadata_len, mask := r.mask,
             fd := toI32 (i32ToU32 r.fd), pid := toI32 (i32ToU32 r.pid) } := by
  have hbs : encodeRecord r ++ rest =
      toLE 4 r.event_len ++ (toLE 1 r.vers ++ (toLE 1 r.reserved ++
        (toLE 2 r.metadata_len ++ (toLE 8 r.mask ++ (toLE 4 (i32ToU32 r.fd) ++
          (toLE 4 (i32ToU32 r.pid) ++ (r.extra ++ rest))))))) := by
    simp [encodeRecord]
  have d4 : (encodeRecord r ++ rest).drop 4 =
      toLE 1 r.vers ++ (toLE 1 r.reserved ++
        (toLE 2 r.metadata_len ++ (toLE 8 r.mask ++ (toLE 4 (i32ToU32 r.fd) ++
          (toLE 4 (i32ToU32 r.pid) ++ (r.extra ++ rest)))))) := by
    rw [hbs]; exact drop_toLE 4 _ _
  have d5 : (encodeRecord r ++ rest).drop 5 =
      toLE 1 r.reserved ++
        (toLE 2 r.metadata_len ++ (toLE 8 r.mask ++ (toLE 4 (i32ToU32 r.fd) ++
          (toLE 4 (i32ToU32 r.pid) ++ (r.extra ++ rest))))) := by
    have hd : (encodeRecord r ++ rest).drop 5 =
        ((encodeRecord r ++ rest).drop 4).drop 1 := by
      rw [List.drop_drop]
    rw [hd, d4]; exact drop_toLE 1 _ _
  have d6 : (encodeRecord r ++ rest).drop 6 =
      toLE 2 r.metadata_len ++ (toLE 8 r.mask ++ (toLE 4 (i32ToU32 r.fd) ++
        (toLE 4 (i32ToU32 r.pid) ++ (r.extra ++ rest)))) := by
    have hd : (encodeRecord r ++ rest).drop 6 =
        ((encodeRecord r ++ rest).drop 5).drop 1 := by
      rw [List.drop_drop]
    rw [hd, d5]; exact drop_toLE 1 _ _
  have d8 : (encodeRecord r ++ rest).drop 8 =
      toLE 8 r.mask ++ (toLE 4 (i32ToU32 r.fd) ++
        (toLE 4 (i32ToU32 r.pid) ++ (r.extra ++ rest))) := by
    have hd : (encodeRecord r ++ rest).drop 8 =
        ((encodeRecord r ++ rest).drop 6).drop 2 := by
      rw [List.drop_drop]
    rw [hd, d6]; exact drop_toLE 2 _ _
  have d16 : (encodeRecord r ++ rest).drop 16 =
      toLE 4 (i32ToU32 r.fd) ++ (toLE 4 (i32ToU32 r.pid) ++ (r.extra ++ rest)) := by
    have hd : (encodeRecord r ++ rest).drop 16 =
        ((encodeRecord r ++ rest).drop 8).drop 8 := by
      rw [List.drop_drop]
    rw [hd, d8]; exact drop_toLE 8 _ _
  have d20 : (encodeRecord r ++ rest).drop 20 =
      toLE 4 (i32ToU32 r.pid) ++ (r.extra ++ rest) := by
    have hd : (encodeRecord r ++ rest).drop 20 =
        ((encodeRecord r ++ rest).drop 16).drop 4 := by
      rw [List.drop_drop]
    rw [hd, d16]; exact drop_toLE 4 _ _
  have f0 : leN? (encodeRecord r ++ rest) 0 4 = some r.event_len := by
    rw [leN?, List.drop_zero, hbs, leBytes_toLE]
    congr 1
    have he : (256 : Nat) ^ 4 = 2 ^ 32 := by norm_num
    rw [he]; exact Nat.mod_eq_of_lt h1
  have f4 : leN? (encodeRecord r ++ rest) 4 1 = some r.vers := by
    rw [leN?, d4, leBytes_toLE]
    congr 1
    have he : (256 : Nat) ^ 1 = 2 ^ 8 := by norm_num
    rw [he]; exact Nat.mod_eq_of_lt h2
  have f5 : leN? (encodeRecord r ++ rest) 5 1 = some r.reserved := by
    rw [leN?, d5, leBytes_toLE]
    congr 1
    have he : (256 : Nat) ^ 1 = 2 ^ 8 := by norm_num
    rw [he]; exact Nat.mod_eq_of_lt h3
  have f6 : leN? (encodeRecord r ++ rest) 6 2 = some r.metadata_len := by
    rw [leN?, d6, leBytes_toLE]
    congr 1
    have he : (256 : Nat) ^ 2 = 2 ^ 16 := by norm_num
    rw [he]; exact Nat.mod_eq_of_lt h4
  have f8 : leN? (encodeRecord r ++ rest) 8 8 = some r.mask := by
    rw [leN?, d8, leBytes_toLE]
    congr 1
    have he : (256 : Nat) ^ 8 = 2 ^ 64 := by norm_num
    rw [he]; exact Nat.mod_eq_of_lt h5
  have f16 : leN? (encodeRecord r ++ rest) 16 4 = some (i32ToU32 r.fd) := by
    rw [leN?, d16, leBytes_toLE]
    congr 1
    have he : (256 : Nat) ^ 4 = 2 ^ 32 := by norm_num
    rw [he]; exact Nat.mod_eq_of_lt (i32ToU32_lt r.fd)
  have f20 : leN? (encodeRecord r ++ rest) 20 4 = some (i32ToU32 r.pid) := by
    rw [leN?, d20, leBytes_toLE]
    congr 1
    have he : (256 : Nat) ^ 4 = 2 ^ 32 := by norm_num
    rw [he]; exact Nat.mod_eq_of_lt (i32ToU32_lt r.pid)
  rw [parseMetadata, f0, f4, f5, f6, f8, f16, f20]

/-- Decoding a buffer that starts with one complete well-formed record:
the single produced event carries that record's mask, pid and fd, and the
whole buffer as `raw_data`; nothing after the first header is decoded. -/
theorem from_raw_data_encode (resolve : Int → Option Path) (r : RawRecord)
    (rest : List Nat) (hwf : r.wf) :
    from_raw_data resolve (encodeRecord r ++ rest) =
      .ok { info := { fd := if r.fd ≥ 0 then some r.fd else none
                      path := if r.fd ≥ 0 then resolve r.fd else none
                      mask := r.mask
                      pid := i32ToU32 r.pid
                      is_directory := containsBits r.mask MaskFlags.ISDIR }
            raw_data := encodeRecord r ++ rest } := by
  obtain ⟨h1, h2, h3, h4, h5, h6, h7, h8, h9, h10⟩ := hwf
  have hnotlt : ¬ (encodeRecord r ++ rest).length < metadataSize := by
    rw [List.length_append, encodeRecord_length]
    unfold metadataSize
    omega
  have hfd := toI32_i32ToU32 r.fd h7 h8
  have hpid := toI32_i32ToU32 r.pid h9 h10
  rw [from_raw_data, if_neg hnotlt, parseMetadata_encode r rest h1 h2 h3 h4 h5,
      hfd, hpid]
  have hfb : MaskFlags.from_bits r.mask = some r.mask := by
    rw [MaskFlags.from_bits, if_pos h6]
  by_cases hge : r.fd ≥ 0 <;> simp [hfb, hge]

/-- Every header read is in bounds once the 24-byte length check passed:
the field parser always succeeds on a buffer of at least 24 bytes. -/
theorem parseMetadata_isSome (bs : List Nat) (h : metadataSize ≤ bs.length) :
    (parseMetadata bs).isSome = true := by
  unfold metadataSize at h
  have g : ∀ off n : Nat, off + n ≤ 24 → (leN? bs off n).isSome = true := by
    intro off n hon
    apply leBytes_isSome
    rw [List.length_drop]
    omega
  obtain ⟨el, hel⟩ := Option.isSome_iff_exists.mp (g 0 4 (by omega))
  obtain ⟨v, hv⟩ := Option.isSome_iff_exists.mp (g 4 1 (by omega))
  obtain ⟨rsv, hrsv⟩ := Option.isSome_iff_exists.mp (g 5 1 (by omega))
  obtain ⟨ml, hml⟩ := Option.isSome_iff_exists.mp (g 6 2 (by omega))
  obtain ⟨mk, hmk⟩ := Option.isSome_iff_exists.mp (g 8 8 (by omega))
  obtain ⟨fdv, hfdv⟩ := Option.isSome_iff_exists.mp (g 16 4 (by omega))
  obtain ⟨pv, hpv⟩ := Option.isSome_iff_exists.mp (g 20 4 (by omega))
  rw [parseMetadata, hel, hv, hrsv, hml, hmk, hfdv, hpv]
  rfl

/-!
## Watch-table lemmas
-/

theorem lookupTable_removeKey (t : WatchTable) (q p : Path) :
    lookupTable (removeKeyTable t q) p =
      if q = p then none else lookupTable t p := by
  induction t with
  | nil => simp [removeKeyTable, lookupTable]
  | cons e t ih =>
    by_cases h2 : q = p
    · subst h2
      by_cases h1 : e.1 = q <;> simp [removeKeyTable, lookupTable, h1, ih]
    · by_cases h1 : e.1 = q <;> simp [removeKeyTable, lookupTable, h1, h2, ih]

theorem lookupTable_insert (t : WatchTable) (p : Path) (m : Nat) (q : Path) :
    lookupTable (insertTable t p m) q =
      if p = q then some m else lookupTable t q := by
  by_cases h : p = q <;>
    simp [insertTable, lookupTable, lookupTable_removeKey, h]

/-- Per-operation effect on the mask stored for `p`. -/
theorem get_mask_applyOp (s : FanotifyState) (op : Op) (p : Path) :
    get_mask (applyOp s op) p =
      (match op with
       | .addW q m k =>
           if q = p ∧ q.contains 0 = false ∧ k = none then some m
           else get_mask s p
       | .removeW q k =>
           if q = p ∧ q.contains 0 = false ∧ k = none then none
           else get_mask s p
       | _ => get_mask s p) := by
  cases op with
  | addW q m k =>
    by_cases hz : (0 : Nat) ∈ q
    · simp [applyOp, add_watch, hz]
    · cases k with
      | some e => simp [applyOp, add_watch, hz]
      | none =>
        by_cases hqp : q = p
        · subst hqp
          simp [applyOp, add_watch, hz, get_mask, lookupTable_insert]
        · simp [applyOp, add_watch, hz, hqp, get_mask, lookupTable_insert]
  | removeW q k =>
    by_cases hz : (0 : Nat) ∈ q
    · simp [applyOp, remove_watch, hz]
    · cases k with
      | some e => simp [applyOp, remove_watch, hz]
      | none =>
        by_cases hqp : q = p
        · subst hqp
          simp [applyOp, remove_watch, hz, get_mask, lookupTable_removeKey]
        · simp [applyOp, remove_watch, hz, hqp, get_mask, lookupTable_removeKey]
  | readE => rfl
  | respondE => rfl

theorem runOps_get_mask (ops : List Op) :
    ∀ (s : FanotifyState) (p : Path),
      get_mask (runOps s ops) p = lastAddFrom ops p (get_mask s p) := by
  induction ops with
  | nil => intro s p; rfl
  | cons op ops ih =>
    intro s p
    rw [show runOps s (op :: ops) = runOps (applyOp s op) ops from rfl,
        ih (applyOp s op) p, get_mask_applyOp]
    cases op <;> rfl

/-!
## Claim theorems
-/

/-- C1, counterexample: `twoRecordBuf` holds two complete back-to-back
records (each 24 bytes, with matching declared `event_len`), yet the
decode path of one read produces a single event — the first record's mask
only — instead of the claimed two events. -/
theorem decode_two_records_counterexample :
    twoRecordBuf = encodeRecord rec1 ++ encodeRecord rec2 ∧
    (encodeRecord rec1).length = 24 ∧ rec1.event_len = 24 ∧
    (encodeRecord rec2).length = 24 ∧ rec2.event_len = 24 ∧
    (eventsOfRead resolveNone twoRecordBuf).length = 1 ∧
    (eventsOfRead resolveNone twoRecordBuf).map (fun e => e.info.mask) = [1] ∧
    rec2.mask = 2 := by
  decide

/-- C1, amended: for every buffer made of one or more complete records,
the decode path invoked by one read produces exactly ONE event, carrying
the mask and pid of the FIRST record and the whole slice as raw data;
later records are not decoded and `event_len` is never consulted. -/
theorem decode_path_first_record_only (resolve : Int → Option Path)
    (r : RawRecord) (rs : List RawRecord) (h : r.wf) :
    eventsOfRead resolve (encodeRecords (r :: rs)) =
      [{ info := { fd := if r.fd ≥ 0 then some r.fd else none
                   path := if r.fd ≥ 0 then resolve r.fd else none
                   mask := r.mask
                   pid := i32ToU32 r.pid
                   is_directory := containsBits r.mask MaskFlags.ISDIR }
         raw_data := encodeRecords (r :: rs) }] := by
  have hjoin : encodeRecords (r :: rs) = encodeRecord r ++ encodeRecords rs := by
    simp [encodeRecords]
  have hlen : ¬ (encodeRecords (r :: rs)).length = 0 := by
    rw [hjoin, List.length_append, encodeRecord_length]; omega
  rw [eventsOfRead, read_event, if_neg hlen, hjoin,
      from_raw_data_encode resolve r (encodeRecords rs) h]
  rfl

/-- C1, witness for the amended theorem at a concrete two-record buffer. -/
theorem decode_path_first_record_only_witness :
    eventsOfRead resolveNone (encodeRecords (rec1 :: [rec2])) =
      [{ info := { fd := if rec1.fd ≥ 0 then some rec1.fd else none
                   path := if rec1.fd ≥ 0 then resolveNone rec1.fd else none
                   mask := rec1.mask
                   pid := i32ToU32 rec1.pid
                   is_directory := containsBits rec1.mask MaskFlags.ISDIR }
         raw_data := encodeRecords (rec1 :: [rec2]) }] :=
  decode_path_first_record_only resolveNone rec1 [rec2] (by decide)

/-- C2, code bug: every multi-bit classification predicate uses bitflags
`contains`, which demands ALL bits of the category union, so a mask with
only DELETE (or DELETE with ISDIR) is NOT classified as a delete event,
a single CLOSE_WRITE is not a close event, a single OPEN_PERM is not a
permission event, and `has_access_events`/`has_modify_events`/
`has_permission_events` reject masks holding one category bit — while the
any-bit test (`intersectsBits`) the claim describes answers true. -/
theorem classification_requires_all_category_bits :
    Event.is_delete evDelete = false ∧
    Event.is_delete evDeleteDir = false ∧
    evDeleteDir.info.is_directory = true ∧
    Event.is_close { info := EventInfo.new MaskFlags.CLOSE_WRITE 1, raw_data := [] } = false ∧
    Event.is_move { info := EventInfo.new MaskFlags.MOVED_TO 1, raw_data := [] } = false ∧
    Event.is_permission evOpenPerm = false ∧
    MaskFlags.has_access_events MaskFlags.ACCESS = false ∧
    MaskFlags.has_modify_events MaskFlags.MODIFY = false ∧
    MaskFlags.has_permission_events MaskFlags.OPEN_PERM = false ∧
    intersectsBits evDelete.info.mask
      (MaskFlags.DELETE ||| MaskFlags.DELETE_SELF) = true := by
  decide

/-- C3, counterexample: a 24-byte record declaring `event_len = 0` decodes
to `.ok`, not to the claimed `InvalidEventData` error. -/
theorem zero_event_len_decoded_ok :
    zeroLenRec.event_len = 0 ∧
    from_raw_data resolveNone (encodeRecord zeroLenRec) =
      .ok { info := { fd := none, path := none, mask := 1, pid := 1,
                      is_directory := false },
            raw_data := encodeRecord zeroLenRec } := by
  decide

/-- C3, amended: decoding never inspects the declared `event_len`: a first
record whose `event_len` is zero or exceeds the buffer still decodes
without any `InvalidEventData` error. -/
theorem decode_ignores_event_len (resolve : Int → Option Path) (r : RawRecord)
    (rest : List Nat) (h : r.wf)
    (hbad : r.event_len = 0 ∨ (encodeRecord r ++ rest).length < r.event_len) :
    ∀ msg, from_raw_data resolve (encodeRecord r ++ rest) ≠
      .error (.InvalidEventData msg) := by
  intro msg
  rw [from_raw_data_encode resolve r rest h]
  simp

/-- C3, witness for the amended theorem at the zero-length record. -/
theorem decode_ignores_event_len_witness :
    from_raw_data resolveNone (encodeRecord zeroLenRec ++ []) ≠
      .error (.InvalidEventData "Data too short") :=
  decode_ignores_event_len resolveNone zeroLenRec [] (by decide)
    (Or.inl rfl) "Data too short"

/-- C4: a slice shorter than the 24-byte header yields `InvalidEventData`
("Data too short"); once the length check passes, every header field read
is in bounds (the field parser always succeeds), and the decoder's
out-of-bounds branch is unreachable for every input. -/
theorem decode_bounds_checked (resolve : Int → Option Path) (bs : List Nat) :
    (bs.length < metadataSize →
      from_raw_data resolve bs = .error (.InvalidEventData "Data too short")) ∧
    (metadataSize ≤ bs.length → (parseMetadata bs).isSome = true) ∧
    from_raw_data resolve bs ≠
      .error (.InvalidEventData "out-of-bounds header read") := by
  refine ⟨?_, ?_, ?_⟩
  · intro h; rw [from_raw_data, if_pos h]
  · exact parseMetadata_isSome bs
  · by_cases h : bs.length < metadataSize
    · rw [from_raw_data, if_pos h]
      decide
    · obtain ⟨md, hmd⟩ := Option.isSome_iff_exists.mp
        (parseMetadata_isSome bs (Nat.le_of_not_lt h))
      rw [from_raw_data, if_neg h, hmd]
      cases hfb : MaskFlags.from_bits md.mask <;> simp [hfb]

/-- C4, witness: a 3-byte buffer errors with "Data too short"; a complete
24-byte buffer passes the header parse. -/
theorem decode_bounds_checked_witness :
    from_raw_data resolveNone [0, 1, 2] =
      .error (.InvalidEventData "Data too short") ∧
    (parseMetadata (encodeRecord rec1)).isSome = true :=
  ⟨(decode_bounds_checked resolveNone [0, 1, 2]).1 (by decide),
   (decode_bounds_checked resolveNone (encodeRecord rec1)).2.1 (by decide)⟩

/-- C5, code bug: `respond` guards with `is_permission`, which requires
BOTH permission bits, so an event carrying the single permission bit
OPEN_PERM (with fd present) is rejected with `InvalidEventData` instead
of having its response record written; only an event with both bits set
gets the record `{fd, response}` with Allow = 0x01 / Deny = 0x02. -/
theorem respond_single_permission_bit_rejected :
    respond evOpenPerm EventFlags.ALLOW =
      .error (.InvalidEventData "Event is not a permission event") ∧
    evOpenPerm.info.mask = MaskFlags.OPEN_PERM ∧
    evOpenPerm.info.fd = some 5 ∧
    EventFlags.ALLOW = 0x01 ∧ EventFlags.DENY = 0x02 ∧
    respond { info := EventInfo.new MaskFlags.ACCESS 3, raw_data := [] }
        EventFlags.DENY =
      .error (.InvalidEventData "Event is not a permission event") ∧
    respond evBothPerm EventFlags.ALLOW = .ok { fd := 5, response := 0x01 } ∧
    respond evBothPerm EventFlags.DENY = .ok { fd := 5, response := 0x02 } := by
  decide

/-- C6, counterexample: the event whose mask is exactly the queue-overflow
bit is reported as "UNKNOWN" / "unknown event" — there is no dedicated
queue-overflow category in `event_type` or `description`. -/
theorem queue_overflow_event_reported_unknown :
    evQOverflow.info.mask = MaskFlags.Q_OVERFLOW ∧
    Event.event_type evQOverflow = "UNKNOWN" ∧
    Event.description evQOverflow = "unknown event" := by
  decide

/-- C6, amended: every event whose mask has only the queue-overflow bit
matches no classification predicate, so it is classified "UNKNOWN" by
`event_type` and "unknown event" by `description`. -/
theorem queue_overflow_mask_classified_unknown (e : Event)
    (h : e.info.mask = MaskFlags.Q_OVERFLOW) :
    Event.event_type e = "UNKNOWN" ∧ Event.description e = "unknown event" := by
  have ha : Event.is_access e = false := by rw [Event.is_access, h]; decide
  have hm : Event.is_modify e = false := by rw [Event.is_modify, h]; decide
  have ho : Event.is_open e = false := by rw [Event.is_open, h]; decide
  have hc : Event.is_close e = false := by rw [Event.is_close, h]; decide
  have hcr : Event.is_create e = false := by rw [Event.is_create, h]; decide
  have hd : Event.is_delete e = false := by rw [Event.is_delete, h]; decide
  have hmv : Event.is_move e = false := by rw [Event.is_move, h]; decide
  have hp : Event.is_permission e = false := by rw [Event.is_permission, h]; decide
  constructor
  · rw [Event.event_type, ha, hm, ho, hc, hcr, hd, hmv, hp]
    decide
  · rw [Event.description, ha, hm, ho, hc, hcr, hd, hmv, hp]
    decide

/-- C6, witness for the amended theorem at the concrete event. -/
theorem queue_overflow_mask_classified_unknown_witness :
    Event.event_type evQOverflow = "UNKNOWN" ∧
    Event.description evQOverflow = "unknown event" :=
  queue_overflow_mask_classified_unknown evQOverflow rfl

/-- C7: after any trace of add/remove/read/respond operations, the mask
stored for a path equals the mask of the last successful `add_watch` on it
not followed by a successful `remove_watch` (and the path is a key exactly
when such an add exists); a failing kernel call leaves the table as it
was. -/
theorem watch_table_invariant :
    (∀ (ops : List Op) (p : Path),
        get_mask (runOps initState ops) p = lastAdd ops p ∧
        is_watched (runOps initState ops) p = (lastAdd ops p).isSome) ∧
    (∀ (s : FanotifyState) (p : Path) (m : Nat) (e : FanotifyError),
        (add_watch s p m (some e)).2.1 = s ∧
        (remove_watch s p (some e)).2.1 = s) := by
  constructor
  · intro ops p
    have h := runOps_get_mask ops initState p
    exact ⟨h, congrArg Option.isSome h⟩
  · intro s p m e
    constructor
    · by_cases hz : (0 : Nat) ∈ p <;> simp [add_watch, hz]
    · by_cases hz : (0 : Nat) ∈ p <;> simp [remove_watch, hz]

/-- C8: a successful `add_watch` leaves the path watched; a successful
`remove_watch` leaves it unwatched; `remove_watch` on a never-watched path
issues the kernel remove with an empty mask (0), succeeds, and leaves the
path unwatched. -/
theorem add_remove_watch_behavior :
    (∀ (s : FanotifyState) (p : Path) (m : Nat) (k : Option FanotifyError),
        (add_watch s p m k).1 = .ok () →
        is_watched (add_watch s p m k).2.1 p = true) ∧
    (∀ (s : FanotifyState) (p : Path) (k : Option FanotifyError),
        (remove_watch s p k).1 = .ok () →
        is_watched (remove_watch s p k).2.1 p = false) ∧
    (∀ (s : FanotifyState) (p : Path),
        lookupTable s.watched_paths p = none → (0 : Nat) ∉ p →
        (remove_watch s p none).1 = .ok () ∧
        (remove_watch s p none).2.2 =
          some { op := .remove, mask := 0, path := p } ∧
        is_watched (remove_watch s p none).2.1 p = false) := by
  refine ⟨?_, ?_, ?_⟩
  · intro s p m k hok
    by_cases hz : (0 : Nat) ∈ p
    · simp [add_watch, hz] at hok
    · cases k with
      | some e => simp [add_watch, hz] at hok
      | none => simp [add_watch, hz, is_watched, lookupTable_insert]
  · intro s p k hok
    by_cases hz : (0 : Nat) ∈ p
    · simp [remove_watch, hz] at hok
    · cases k with
      | some e => simp [remove_watch, hz] at hok
      | none => simp [remove_watch, hz, is_watched, lookupTable_removeKey]
  · intro s p hnone hz
    refine ⟨?_, ?_, ?_⟩
    · simp [remove_watch, hz]
    · simp [remove_watch, hz, hnone]
    · simp [remove_watch, hz, is_watched, lookupTable_removeKey]

/-- C8, witness at concrete paths. -/
theorem add_remove_watch_behavior_witness :
    is_watched (add_watch initState [97] 5 none).2.1 [97] = true ∧
    is_watched
      (remove_watch (add_watch initState [97] 5 none).2.1 [97] none).2.1
      [97] = false ∧
    ((remove_watch initState [98] none).1 = .ok () ∧
     (remove_watch initState [98] none).2.2 =
       some { op := .remove, mask := 0, path := [98] } ∧
     is_watched (remove_watch initState [98] none).2.1 [98] = false) :=
  ⟨add_remove_watch_behavior.1 initState [97] 5 none (by decide),
   add_remove_watch_behavior.2.1
     (add_watch initState [97] 5 none).2.1 [97] none (by decide),
   add_remove_watch_behavior.2.2 initState [98] (by decide) (by decide)⟩

/-- C9: UNMOUNT and ACCESS_PERM are the same bit 0x2000, so no mask can
distinguish them and ALL_EVENTS contains the ACCESS_PERM bit. -/
theorem unmount_equals_access_perm :
    MaskFlags.UNMOUNT = MaskFlags.ACCESS_PERM ∧
    MaskFlags.ACCESS_PERM = 0x2000 ∧
    (∀ m : Nat, containsBits m MaskFlags.UNMOUNT =
       containsBits m MaskFlags.ACCESS_PERM) ∧
    containsBits MaskFlags.ALL_EVENTS MaskFlags.ACCESS_PERM = true ∧
    containsBits MaskFlags.ALL_EVENTS MaskFlags.UNMOUNT = true :=
  ⟨rfl, rfl, fun _ => rfl, by decide, by decide⟩

/-- C10: an event that passes the permission check but carries no file
descriptor makes `respond` return `InvalidEventData` before any response
record is constructed or written. -/
theorem respond_missing_fd_error (e : Event) (resp : Nat)
    (hperm : Event.is_permission e = true) (hfd : e.info.fd = none) :
    respond e resp =
      .error (.InvalidEventData "Permission event has no file descriptor") := by
  rw [respond, hperm]
  simp [hfd]

/-- C10, witness at the fd-less double-permission-bit event. -/
theorem respond_missing_fd_error_witness :
    respond evBothPermNoFd EventFlags.ALLOW =
      .error (.InvalidEventData "Permission event has no file descriptor") :=
  respond_missing_fd_error evBothPermNoFd EventFlags.ALLOW (by decide) rfl

end FanotifyRs
